import Mathlib

/-!
Shallow embedding of `botaffiumeiro.py` (a Telegram affiliate-link bot) and
proofs about its link-processing pipeline: AliExpress request signing (MD5),
product-id / ASIN extraction, affiliate-link construction, handler dispatch,
URL extraction, the URL shortener and the user-exclusion filter.

External effects (HTTP calls, wall-clock time, Telegram transport) are
modelled as explicit oracle parameters; everything else is translated
directly from the source.
-/

set_option maxRecDepth 100000

namespace Botaffiumeiro

/-! MD5, as computed by Python's `hashlib.md5(...).hexdigest()`.
Bytes and 32-bit words are `Nat` with explicit reduction mod 2^32. -/

def add32 (a b : Nat) : Nat := (a + b) % 4294967296

def rotl32 (x c : Nat) : Nat := ((x <<< c) % 4294967296) ||| (x >>> (32 - c))

def not32 (x : Nat) : Nat := x ^^^ 4294967295

def mdK : List Nat :=
  [0xd76aa478, 0xe8c7b756, 0x242070db, 0xc1bdceee, 0xf57c0faf, 0x4787c62a, 0xa8304613, 0xfd469501,
   0x698098d8, 0x8b44f7af, 0xffff5bb1, 0x895cd7be, 0x6b901122, 0xfd987193, 0xa679438e, 0x49b40821,
   0xf61e2562, 0xc040b340, 0x265e5a51, 0xe9b6c7aa, 0xd62f105d, 0x02441453, 0xd8a1e681, 0xe7d3fbc8,
   0x21e1cde6, 0xc33707d6, 0xf4d50d87, 0x455a14ed, 0xa9e3e905, 0xfcefa3f8, 0x676f02d9, 0x8d2a4c8a,
   0xfffa3942, 0x8771f681, 0x6d9d6122, 0xfde5380c, 0xa4beea44, 0x4bdecfa9, 0xf6bb4b60, 0xbebfbc70,
   0x289b7ec6, 0xeaa127fa, 0xd4ef3085, 0x04881d05, 0xd9d4d039, 0xe6db99e5, 0x1fa27cf8, 0xc4ac5665,
   0xf4292244, 0x432aff97, 0xab9423a7, 0xfc93a039, 0x655b59c3, 0x8f0ccc92, 0xffeff47d, 0x85845dd1,
   0x6fa87e4f, 0xfe2ce6e0, 0xa3014314, 0x4e0811a1, 0xf7537e82, 0xbd3af235, 0x2ad7d2bb, 0xeb86d391]

def mdS : List Nat :=
  [7, 12, 17, 22, 7, 12, 17, 22, 7, 12, 17, 22, 7, 12, 17, 22,
   5, 9, 14, 20, 5, 9, 14, 20, 5, 9, 14, 20, 5, 9, 14, 20,
   4, 11, 16, 23, 4, 11, 16, 23, 4, 11, 16, 23, 4, 11, 16, 23,
   6, 10, 15, 21, 6, 10, 15, 21, 6, 10, 15, 21, 6, 10, 15, 21]

def md5Round (m : List Nat) (st : Nat × Nat × Nat × Nat) (i : Nat) : Nat × Nat × Nat × Nat :=
  let a := st.1
  let b := st.2.1
  let c := st.2.2.1
  let d := st.2.2.2
  let f :=
    if i < 16 then (b &&& c) ||| (not32 b &&& d)
    else if i < 32 then (d &&& b) ||| (not32 d &&& c)
    else if i < 48 then b ^^^ c ^^^ d
    else c ^^^ (b ||| not32 d)
  let g :=
    if i < 16 then i
    else if i < 32 then (5 * i + 1) % 16
    else if i < 48 then (3 * i + 5) % 16
    else (7 * i) % 16
  let tmp := add32 (add32 (add32 a f) (mdK.getD i 0)) (m.getD g 0)
  (d, add32 b (rotl32 tmp (mdS.getD i 0)), b, c)

/-- Little-endian rendering of `x` as `n` bytes (each a `Nat` below 256). -/
def leBytes (n x : Nat) : List Nat :=
  (List.range n).map fun i => (x >>> (8 * i)) % 256

def md5Block (st : Nat × Nat × Nat × Nat) (block : List Nat) : Nat × Nat × Nat × Nat :=
  let m := (List.range 16).map fun j =>
    block.getD (4 * j) 0 + 256 * block.getD (4 * j + 1) 0 +
      65536 * block.getD (4 * j + 2) 0 + 16777216 * block.getD (4 * j + 3) 0
  let r := (List.range 64).foldl (md5Round m) st
  (add32 st.1 r.1, add32 st.2.1 r.2.1, add32 st.2.2.1 r.2.2.1, add32 st.2.2.2 r.2.2.2)

def chunks64 : Nat → List Nat → List (List Nat)
  | _, [] => []
  | 0, _ => []
  | fuel + 1, l => l.take 64 :: chunks64 fuel (l.drop 64)

/-- MD5 padding: append 0x80, zeros to 56 mod 64, then the bit length
as 8 little-endian bytes. -/
def md5Pad (msg : List Nat) : List Nat :=
  msg ++ 0x80 :: List.replicate ((119 - msg.length % 64) % 64) 0 ++ leBytes 8 (8 * msg.length)

def md5Digest (msg : List Nat) : Nat × Nat × Nat × Nat :=
  let padded := md5Pad msg
  (chunks64 padded.length padded).foldl md5Block (0x67452301, 0xefcdab89, 0x98badcfe, 0x10325476)

/-- The 16 digest bytes of MD5. -/
def md5Bytes (msg : List Nat) : List Nat :=
  let s := md5Digest msg
  leBytes 4 s.1 ++ leBytes 4 s.2.1 ++ leBytes 4 s.2.2.1 ++ leBytes 4 s.2.2.2

def hexDigit (n : Nat) : Char :=
  if n < 10 then Char.ofNat (48 + n) else Char.ofNat (87 + n)

def byteHex (b : Nat) : List Char := [hexDigit (b / 16), hexDigit (b % 16)]

/-- UTF-8 encoding of one character, as Python's `str.encode("utf-8")`. -/
def utf8Char (c : Char) : List Nat :=
  let n := c.toNat
  if n < 0x80 then [n]
  else if n < 0x800 then [0xC0 ||| (n >>> 6), 0x80 ||| (n &&& 0x3F)]
  else if n < 0x10000 then
    [0xE0 ||| (n >>> 12), 0x80 ||| ((n >>> 6) &&& 0x3F), 0x80 ||| (n &&& 0x3F)]
  else
    [0xF0 ||| (n >>> 18), 0x80 ||| ((n >>> 12) &&& 0x3F),
     0x80 ||| ((n >>> 6) &&& 0x3F), 0x80 ||| (n &&& 0x3F)]

def utf8Encode (s : String) : List Nat := s.data.flatMap utf8Char

/-- Python's `hashlib.md5(s.encode("utf-8")).hexdigest()`. -/
def md5HexOfString (s : String) : String :=
  String.mk ((md5Bytes (utf8Encode s)).flatMap byteHex)

theorem md5_vector_empty : md5HexOfString "" = "d41d8cd98f00b204e9800998ecf8427e" := by
  rfl

theorem md5_vector_abc : md5HexOfString "abc" = "900150983cd24fb0d6963f7d28e17f72" := by
  rfl

theorem md5_vector_fox :
    md5HexOfString "The quick brown fox jumps over the lazy dog" =
      "9e107d9d372bb6826bd81d3542a419d6" := by
  rfl

theorem md5_vector_multiblock :
    md5HexOfString (String.mk (List.replicate 70 (Char.ofNat 97))) =
      "0f5c6c4e740bfcc08c3c26ccb2673d46" := by
  rfl

theorem md5_vector_nonascii : md5HexOfString "señal€" = "cb83a24533cdfe9c1e806262cb3ca6df" := by
  rfl

/-! AliExpress request signing (`AliexpressAPIHandler._generate_signature`).
Python's `sorted(params.items())` orders key/value pairs lexicographically:
by key, with the value breaking ties. -/

/-- Python's `<` on strings: lexicographic comparison of code points. -/
def listCharLt : List Char → List Char → Bool
  | _, [] => false
  | [], _ :: _ => true
  | a :: as, b :: bs =>
    if a.toNat < b.toNat then true
    else if a.toNat = b.toNat then listCharLt as bs
    else false

/-- Python's `<=` on strings. -/
def listCharLe : List Char → List Char → Bool
  | [], _ => true
  | _ :: _, [] => false
  | a :: as, b :: bs =>
    if a.toNat < b.toNat then true
    else if a.toNat = b.toNat then listCharLe as bs
    else false

/-- Python's ordering of the pairs produced by `params.items()`:
lexicographic on the pair, key first, value breaking ties. -/
def pairLeb (a b : String × String) : Bool :=
  listCharLt a.1.data b.1.data || (a.1 == b.1 && listCharLe a.2.data b.2.data)

def pairLe (a b : String × String) : Prop := pairLeb a b = true

instance : DecidableRel pairLe := fun a b =>
  inferInstanceAs (Decidable (pairLeb a b = true))

theorem charEq_of_toNat_eq {a b : Char} (h : a.toNat = b.toNat) : a = b :=
  Char.ext (UInt32.toNat.inj h)

theorem listCharLt_trichotomy : ∀ (x y : List Char),
    listCharLt x y = true ∨ x = y ∨ listCharLt y x = true := by
  intro x
  induction x with
  | nil =>
    intro y
    cases y with
    | nil => exact Or.inr (Or.inl rfl)
    | cons b bs => exact Or.inl (by simp [listCharLt])
  | cons a as ih =>
    intro y
    cases y with
    | nil => exact Or.inr (Or.inr (by simp [listCharLt]))
    | cons b bs =>
      rcases Nat.lt_trichotomy a.toNat b.toNat with h | h | h
      · exact Or.inl (by simp [listCharLt, h])
      · have hab : a = b := charEq_of_toNat_eq h
        subst hab
        rcases ih bs with h2 | h2 | h2
        · exact Or.inl (by simp [listCharLt, h2])
        · exact Or.inr (Or.inl (by rw [h2]))
        · exact Or.inr (Or.inr (by simp [listCharLt, h2]))
      · exact Or.inr (Or.inr (by simp [listCharLt, h]))

theorem listCharLt_trans : ∀ {x y z : List Char},
    listCharLt x y = true → listCharLt y z = true → listCharLt x z = true := by
  intro x
  induction x with
  | nil =>
    intro y z hxy hyz
    cases y with
    | nil => simp [listCharLt] at hxy
    | cons b bs =>
      cases z with
      | nil => simp [listCharLt] at hyz
      | cons c cs => simp [listCharLt]
  | cons a as ih =>
    intro y z hxy hyz
    cases y with
    | nil => simp [listCharLt] at hxy
    | cons b bs =>
      cases z with
      | nil => simp [listCharLt] at hyz
      | cons c cs =>
        simp only [listCharLt] at hxy hyz ⊢
        rcases Nat.lt_trichotomy a.toNat b.toNat with h1 | h1 | h1
        · rcases Nat.lt_trichotomy b.toNat c.toNat with h2 | h2 | h2
          · simp [show a.toNat < c.toNat by omega]
          · simp [show a.toNat < c.toNat by omega]
          · simp [show ¬ b.toNat < c.toNat by omega, show ¬ b.toNat = c.toNat by omega] at hyz
        · rcases Nat.lt_trichotomy b.toNat c.toNat with h2 | h2 | h2
          · simp [show a.toNat < c.toNat by omega]
          · simp [show ¬ a.toNat < c.toNat by omega, show a.toNat = c.toNat by omega]
            simp [show ¬ a.toNat < b.toNat by omega, h1] at hxy
            simp [show ¬ b.toNat < c.toNat by omega, h2] at hyz
            exact ih hxy hyz
          · simp [show ¬ b.toNat < c.toNat by omega, show ¬ b.toNat = c.toNat by omega] at hyz
        · simp [show ¬ a.toNat < b.toNat by omega, show ¬ a.toNat = b.toNat by omega] at hxy

theorem listCharLe_iff : ∀ (x y : List Char),
    listCharLe x y = true ↔ (listCharLt x y = true ∨ x = y) := by
  intro x
  induction x with
  | nil =>
    intro y
    cases y with
    | nil => simp [listCharLe, listCharLt]
    | cons b bs => simp [listCharLe, listCharLt]
  | cons a as ih =>
    intro y
    cases y with
    | nil => simp [listCharLe, listCharLt]
    | cons b bs =>
      simp only [listCharLe, listCharLt]
      rcases Nat.lt_trichotomy a.toNat b.toNat with h | h | h
      · simp [h]
      · have hab : a = b := charEq_of_toNat_eq h
        subst hab
        simp [ih bs]
      · have hne : a ≠ b := fun hh => by rw [hh] at h; omega
        simp [show ¬ a.toNat < b.toNat by omega, show ¬ a.toNat = b.toNat by omega, hne]

theorem listCharLe_total (x y : List Char) :
    listCharLe x y = true ∨ listCharLe y x = true := by
  rcases listCharLt_trichotomy x y with h | h | h
  · exact Or.inl ((listCharLe_iff x y).mpr (Or.inl h))
  · exact Or.inl ((listCharLe_iff x y).mpr (Or.inr h))
  · exact Or.inr ((listCharLe_iff y x).mpr (Or.inl h))

theorem listCharLe_trans {x y z : List Char} (h1 : listCharLe x y = true)
    (h2 : listCharLe y z = true) : listCharLe x z = true := by
  rcases (listCharLe_iff x y).mp h1 with hl | rfl
  · rcases (listCharLe_iff y z).mp h2 with hl2 | rfl
    · exact (listCharLe_iff x z).mpr (Or.inl (listCharLt_trans hl hl2))
    · exact (listCharLe_iff x y).mpr (Or.inl hl)
  · exact h2

instance : IsTotal (String × String) pairLe where
  total a b := by
    rcases listCharLt_trichotomy a.1.data b.1.data with h | h | h
    · exact Or.inl (by simp [pairLe, pairLeb, h])
    · have hk : a.1 = b.1 := String.ext h
      rcases listCharLe_total a.2.data b.2.data with h2 | h2
      · exact Or.inl (by simp [pairLe, pairLeb, hk, h2])
      · exact Or.inr (by simp [pairLe, pairLeb, hk.symm, h2])
    · exact Or.inr (by simp [pairLe, pairLeb, h])

instance : IsTrans (String × String) pairLe where
  trans a b c hab hbc := by
    simp only [pairLe, pairLeb, Bool.or_eq_true, Bool.and_eq_true, beq_iff_eq] at hab hbc ⊢
    rcases hab with h1 | ⟨h1, v1⟩
    · rcases hbc with h2 | ⟨h2, v2⟩
      · exact Or.inl (listCharLt_trans h1 h2)
      · exact Or.inl (by rw [← h2]; exact h1)
    · rcases hbc with h2 | ⟨h2, v2⟩
      · exact Or.inl (by rw [h1]; exact h2)
      · exact Or.inr ⟨h1.trans h2, listCharLe_trans v1 v2⟩

/-- Python's `sorted(params.items())` on the parameter mapping. -/
def sortedItems (params : List (String × String)) : List (String × String) :=
  params.insertionSort pairLe

/-- Line-by-line translation of `AliexpressAPIHandler._generate_signature`. -/
def _generate_signature (secret api_path : String) (params : List (String × String)) : String :=
  let sorted_params := String.join ((sortedItems params).map fun kv => kv.1 ++ kv.2)
  let sign_string := secret ++ api_path ++ sorted_params ++ secret
  md5HexOfString sign_string

/-! Models of the three regular expressions, as left-to-right scanners with
leftmost-match semantics, the semantics of `re.search` / `re.findall`. -/

/-- Maximal leading run of characters satisfying `p` (a greedy character
class repetition), returning the run and the remainder. -/
def takeRun (p : Char → Bool) : List Char → List Char × List Char
  | [] => ([], [])
  | c :: cs =>
    if p c then
      let r := takeRun p cs
      (c :: r.1, r.2)
    else ([], c :: cs)

/-- One attempted match of `/item/(\d+)\.html` at the current position. -/
def tryItemAt (l : List Char) : Option (List Char) :=
  if ("/item/").data.isPrefixOf l then
    let r := takeRun Char.isDigit (l.drop 6)
    if !r.1.isEmpty && (".html").data.isPrefixOf r.2 then some r.1 else none
  else none

/-- Scanner for `re.search(r"/item/(\d+)\.html", url)`: the capture of the
leftmost match, if any. -/
def itemScan : List Char → Option (List Char)
  | [] => none
  | c :: cs =>
    match tryItemAt (c :: cs) with
    | some ds => some ds
    | none => itemScan cs

/-- Translation of `AliexpressAPIHandler.extract_product_id`. -/
def extract_product_id (url : String) : Option String :=
  (itemScan url.data).map fun ds => String.mk ds

/-- The character class `[A-Z0-9]` of the ASIN regex. -/
def isUpperAlnum (c : Char) : Bool := c.isUpper || c.isDigit

/-- One attempted match of `([A-Z0-9]{10})(?:[/?]|$)` just after a `/`. -/
def tryAsinAt (l : List Char) : Option (List Char) :=
  let cand := l.take 10
  let rest := l.drop 10
  if cand.length == 10 && cand.all isUpperAlnum &&
      (rest.isEmpty || rest.head? == some '/' || rest.head? == some '?') then
    some cand
  else none

/-- Scanner for `re.search(r"/([A-Z0-9]{10})(?:[/?]|$)", url)`. -/
def asinScan : List Char → Option (List Char)
  | [] => none
  | c :: cs =>
    if c == '/' then
      match tryAsinAt cs with
      | some a => some a
      | none => asinScan cs
    else asinScan cs

/-- Translation of `AmazonAPIHandler.extract_asin`. -/
def extract_asin (url : String) : Option String :=
  (asinScan url.data).map fun a => String.mk a

/-- The character class `[\w./?=&%-]` of the URL regex (ASCII view of `\w`). -/
def urlChar (c : Char) : Bool :=
  c.isAlphanum || c == '_' || c == '.' || c == '/' || c == '?' ||
    c == '=' || c == '&' || c == '%' || c == '-'

/-- One attempted match of `https?://[\w./?=&%-]+` at the current position:
the matched URL together with the remainder of the text. -/
def tryUrlAt (l : List Char) : Option (List Char × List Char) :=
  match l with
  | 'h' :: 't' :: 't' :: 'p' :: 's' :: ':' :: '/' :: '/' :: r =>
    let run := takeRun urlChar r
    if run.1.isEmpty then none
    else some (('h' :: 't' :: 't' :: 'p' :: 's' :: ':' :: '/' :: '/' :: run.1), run.2)
  | 'h' :: 't' :: 't' :: 'p' :: ':' :: '/' :: '/' :: r =>
    let run := takeRun urlChar r
    if run.1.isEmpty then none
    else some (('h' :: 't' :: 't' :: 'p' :: ':' :: '/' :: '/' :: run.1), run.2)
  | _ => none

/-- Scanner for `re.findall(r"https?://[\w./?=&%-]+", text)`: successive
non-overlapping leftmost matches. The fuel argument only serves
termination; `text.length` is always enough, since every match consumes at
least one character. -/
def findUrlsAux : Nat → List Char → List (List Char)
  | 0, _ => []
  | _ + 1, [] => []
  | fuel + 1, c :: cs =>
    match tryUrlAt (c :: cs) with
    | some (u, rem) => u :: findUrlsAux fuel rem
    | none => findUrlsAux fuel cs

/-- The URL extraction in `process_link_handlers`. -/
def findUrls (text : String) : List String :=
  (findUrlsAux text.data.length text.data).map fun u => String.mk u

/-! Data model: product info, vendor configuration, vendor responses.
HTTP calls are oracle functions; a `none` response covers any request
exception, non-2xx status or missing field caught by the handlers. -/

/-- Python truthiness of an optional string (`None` and `""` are falsy). -/
def truthyOpt : Option String → Bool
  | none => false
  | some s => !(s == "")

/-- Python `x or d` for an optional string `x` and default `d`. -/
def pyOr (x : Option String) (d : String) : String :=
  match x with
  | some s => if s == "" then d else s
  | none => d

/-- Python `x if x else None` for an optional string `x`. -/
def pyIfElseNone (x : Option String) : Option String :=
  match x with
  | some s => if s == "" then none else some s
  | none => none

/-- Python `f"{x}"` for a possibly absent value. -/
def pyStr : Option String → String
  | some s => s
  | none => "None"

/-- The dictionary returned by either handler's `get_product_info`. Both
handlers always set the `description` key to a string. -/
structure ProductInfo where
  title : Option String
  image_url : Option String
  price : Option String
  old_price : Option String
  description : String
deriving DecidableEq, Repr

/-- The `result` object of the AliExpress JSON response. -/
structure AliResult where
  productTitle : Option String
  productMainImageUrl : Option String
  salePrice : Option String
  originalPrice : Option String
  productDescription : Option String
deriving DecidableEq, Repr

/-- AliExpress fields of the configuration manager. -/
structure AliConfig where
  aliexpress_app_key : String
  aliexpress_app_secret : String
  aliexpress_aff_id : String
deriving DecidableEq, Repr

def aliApiPath : String := "/openapi/param2/2/portals.open/api.getPromotionProductDetail/"

/-- The `params` dictionary built in `AliexpressAPIHandler.get_product_info`
before the signature is added. -/
def aliParams (cfg : AliConfig) (now : Nat) (product_id : String) : List (String × String) :=
  [("app_key", cfg.aliexpress_app_key), ("productId", product_id), ("timestamp", toString now)]

/-- The same dictionary after `params["sign"] = self._generate_signature(...)`. -/
def aliSignedParams (cfg : AliConfig) (now : Nat) (product_id : String) :
    List (String × String) :=
  aliParams cfg now product_id ++
    [("sign", _generate_signature cfg.aliexpress_app_secret aliApiPath (aliParams cfg now product_id))]

/-- The dictionary built from the `result` object of the AliExpress response. -/
def aliProductOf (result : AliResult) : ProductInfo :=
  { title := result.productTitle
    image_url := result.productMainImageUrl
    price := result.salePrice
    old_price := result.originalPrice
    description := pyOr result.productDescription "Producto en AliExpress" }

/-- Translation of `AliexpressAPIHandler.get_product_info`. The wall clock
is the explicit `now` (milliseconds); the HTTP GET is the oracle `http`,
with `none` for any exception or a response without a `result` key. -/
def ali_get_product_info (cfg : AliConfig) (now : Nat)
    (http : List (String × String) → Option AliResult) (url : String) : Option ProductInfo :=
  match extract_product_id url with
  | none => none
  | some product_id =>
    match http (aliSignedParams cfg now product_id) with
    | none => none
    | some result => some (aliProductOf result)

/-- Translation of `AliexpressAPIHandler.create_affiliate_link`. -/
def ali_create_affiliate_link (cfg : AliConfig) (url : String) : String :=
  url ++ "?aff_id=" ++ cfg.aliexpress_aff_id

/-- Boolean substring test, Python's `pat in s`. -/
def containsSub (pat : List Char) : List Char → Bool
  | [] => pat.isEmpty
  | c :: cs => pat.isPrefixOf (c :: cs) || containsSub pat cs

def strContains (s pat : String) : Bool := containsSub pat.data s.data

/-- Translation of `AliexpressAPIHandler.can_handle`. -/
def ali_can_handle (url : String) : Bool := strContains url "aliexpress.com"

/-- Offer listing of the Amazon PAAPI response. -/
structure AmazonListing where
  price_display_amount : String
  price_savings_basis : Option String
deriving DecidableEq, Repr

/-- Item of the Amazon PAAPI response; `features` is `none` when the
response carries no feature object. -/
structure AmazonItem where
  title_display_value : String
  primary_large_url : String
  listings : List AmazonListing
  features : Option (List String)
deriving DecidableEq, Repr

/-- Amazon fields of the configuration manager. -/
structure AmazonConfig where
  amazon_country : String
  amazon_affiliate_tag : String
deriving DecidableEq, Repr

/-- Translation of `AmazonAPIHandler.can_handle`. -/
def amazon_can_handle (url : String) : Bool := strContains url "amazon."

/-- Translation of `AmazonAPIHandler.get_product_info`. The PAAPI item
lookup is the oracle `fetch`; `none` covers any API error or empty items
list. An empty listings list, or an empty feature list when features are
present, raises `IndexError` in the source, caught as `None`. -/
def amazon_get_product_info (fetch : String → Option AmazonItem) (url : String) :
    Option ProductInfo :=
  match extract_asin url with
  | none => none
  | some asin =>
    match fetch asin with
    | none => none
    | some item =>
      match item.listings with
      | [] => none
      | listing :: _ =>
        match item.features with
        | none =>
          some { title := some item.title_display_value
                 image_url := some item.primary_large_url
                 price := some listing.price_display_amount
                 old_price := pyIfElseNone listing.price_savings_basis
                 description := "Producto de Amazon" }
        | some [] => none
        | some (d :: _) =>
          some { title := some item.title_display_value
                 image_url := some item.primary_large_url
                 price := some listing.price_display_amount
                 old_price := pyIfElseNone listing.price_savings_basis
                 description := d }

/-- Translation of `AmazonAPIHandler.create_affiliate_link`. -/
def amazon_create_affiliate_link (cfg : AmazonConfig) (url : String) : String :=
  match extract_asin url with
  | some asin =>
    "https://www.amazon." ++ cfg.amazon_country ++ "/dp/" ++ asin ++
      "?tag=" ++ cfg.amazon_affiliate_tag
  | none => url

/-! Utilities and the message-processing pipeline. -/

/-- Translation of `shorten_url`; the oracle `resp` is the shortener HTTP
response as (status, body), with `none` for a network exception. -/
def shorten_url (resp : Option (Nat × String)) (url : String) : String :=
  match resp with
  | none => url
  | some r => if r.1 == 200 then r.2 else url

/-- Translation of `prepare_message`; a message is its optional text. -/
def prepare_message (message : Option String) : String :=
  match message with
  | some t => t
  | none => ""

/-- The capability set of a vendor handler. -/
structure Handler where
  can_handle : String → Bool
  get_product_info : String → Option ProductInfo
  create_affiliate_link : String → String

/-- An outbound reply: `reply_photo` or `reply_text`. -/
inductive Reply where
  | photo (photo caption : String)
  | text (content : String)
deriving DecidableEq, Repr

/-- The caption assembled in `process_link_handlers` for a found product. -/
def buildCaption (product : ProductInfo) (short_link : String) : String :=
  let c := "<b>" ++ pyStr product.title ++ "</b>\n" ++ "💸 Precio: " ++ pyStr product.price ++ "\n"
  let c := if truthyOpt product.old_price then c ++ "💰 Antes: " ++ pyStr product.old_price ++ "\n" else c
  let c := if product.description == "" then c else c ++ "📝 " ++ product.description ++ "\n"
  c ++ "🔗 " ++ short_link

/-- The reply sent for a found product: affiliate link, shortening, caption,
then `reply_photo` when an image URL is present, else `reply_text`. -/
def productReply (shorten : String → Option (Nat × String)) (handler : Handler)
    (product : ProductInfo) (url : String) : Reply :=
  let affiliate_link := handler.create_affiliate_link url
  let short_link := shorten_url (shorten affiliate_link) affiliate_link
  let caption := buildCaption product short_link
  if truthyOpt product.image_url then Reply.photo (pyStr product.image_url) caption
  else Reply.text caption

/-- The inner handler loop of `process_link_handlers` for one URL. The
`break` in the source ends the loop only when a product was found; a
matching handler without a product emits the raw URL and the loop goes on. -/
def processUrl (shorten : String → Option (Nat × String)) (handlers : List Handler)
    (url : String) : List Reply :=
  match handlers with
  | [] => []
  | h :: t =>
    if h.can_handle url then
      match h.get_product_info url with
      | some product => [productReply shorten h product url]
      | none => Reply.text ("🔗 " ++ url) :: processUrl shorten t url
    else processUrl shorten t url

/-- Translation of `process_link_handlers`: extract the URLs, then run the
handler loop on each, concatenating the emitted replies in order. -/
def process_link_handlers (shorten : String → Option (Nat × String))
    (handlers : List Handler) (message : Option String) : List Reply :=
  (findUrls (prepare_message message)).flatMap (processUrl shorten handlers)

/-- The handler list constructed per message in `process_link_handlers`. -/
def registeredHandlers (cfgA : AliConfig) (cfgZ : AmazonConfig) (now : Nat)
    (aliHttp : List (String × String) → Option AliResult)
    (amzFetch : String → Option AmazonItem) : List Handler :=
  [{ can_handle := ali_can_handle
     get_product_info := ali_get_product_info cfgA now aliHttp
     create_affiliate_link := ali_create_affiliate_link cfgA },
   { can_handle := amazon_can_handle
     get_product_info := amazon_get_product_info amzFetch
     create_affiliate_link := amazon_create_affiliate_link cfgZ }]

/-- Telegram sender identity. -/
structure TelegramUser where
  id : Int
  username : Option String
deriving DecidableEq, Repr

/-- The configured exclusion set. Python keeps one collection of mixed ints
and strings; membership never crosses types, so it splits into two lists. -/
structure ExcludedUsers where
  ids : List Int
  names : List String
deriving DecidableEq, Repr

/-- Translation of `is_user_excluded`. The Python guard `username and ...`
makes a `None` or empty username fall through to the id test alone. -/
def is_user_excluded (excluded : ExcludedUsers) (user : TelegramUser) : Bool :=
  excluded.ids.contains user.id ||
    (match user.username with
     | some s => !(s == "") && excluded.names.contains s
     | none => false)

/-- An incoming update: optional message text, optional sender. `none`
text models both a missing message and a message without text. -/
structure TgUpdate where
  message : Option String
  effective_user : Option TelegramUser
deriving DecidableEq, Repr

/-- Translation of `modify_link`: guard on message text and sender, drop
excluded senders, otherwise run the pipeline. The returned list holds the
replies sent. -/
def modify_link (excluded : ExcludedUsers) (shorten : String → Option (Nat × String))
    (handlers : List Handler) (update : TgUpdate) : List Reply :=
  match update.message with
  | none => []
  | some text =>
    if text == "" then []
    else
      match update.effective_user with
      | none => []
      | some user =>
        if is_user_excluded excluded user then []
        else process_link_handlers shorten handlers (some text)

/-! Shape lemmas: the MD5 hex digest is always 32 hexadecimal characters. -/

theorem length_leBytes (n x : Nat) : (leBytes n x).length = n := by
  simp [leBytes]

theorem lt_256_of_mem_leBytes {n x b : Nat} (h : b ∈ leBytes n x) : b < 256 := by
  simp only [leBytes, List.mem_map] at h
  obtain ⟨i, _, rfl⟩ := h
  exact Nat.mod_lt _ (by norm_num)

theorem length_md5Bytes (msg : List Nat) : (md5Bytes msg).length = 16 := by
  simp [md5Bytes, length_leBytes]

theorem lt_256_of_mem_md5Bytes {m : List Nat} {x : Nat} (h : x ∈ md5Bytes m) : x < 256 := by
  have h2 : x ∈ leBytes 4 (md5Digest m).1 ∨ x ∈ leBytes 4 (md5Digest m).2.1 ∨
      x ∈ leBytes 4 (md5Digest m).2.2.1 ∨ x ∈ leBytes 4 (md5Digest m).2.2.2 := by
    simp only [md5Bytes, List.append_assoc, List.mem_append] at h
    exact h
  rcases h2 with h2 | h2 | h2 | h2 <;> exact lt_256_of_mem_leBytes h2

theorem length_flatMap_byteHex (l : List Nat) : (l.flatMap byteHex).length = 2 * l.length := by
  induction l with
  | nil => rfl
  | cons b t ih => simp [List.flatMap_cons, byteHex, ih]; omega

def hexAlphabet : List Char := ("0123456789abcdef").data

theorem hexDigit_mem {n : Nat} (h : n < 16) : hexDigit n ∈ hexAlphabet := by
  interval_cases n <;> decide

theorem md5HexOfString_length (s : String) : (md5HexOfString s).length = 32 := by
  show (md5Bytes (utf8Encode s) |>.flatMap byteHex).length = 32
  rw [length_flatMap_byteHex, length_md5Bytes]

theorem md5HexOfString_hex (s : String) :
    ∀ c ∈ (md5HexOfString s).data, c ∈ hexAlphabet := by
  intro c hc
  have hc2 : c ∈ (md5Bytes (utf8Encode s)).flatMap byteHex := hc
  rw [List.mem_flatMap] at hc2
  obtain ⟨b, hb, hcb⟩ := hc2
  have hlt : b < 256 := lt_256_of_mem_md5Bytes hb
  simp only [byteHex, List.mem_cons, List.mem_singleton] at hcb
  rcases hcb with rfl | rfl | h
  · exact hexDigit_mem (by omega)
  · exact hexDigit_mem (Nat.mod_lt _ (by norm_num))
  · cases h

/-! Sortedness and permutation facts about the signed parameter list. -/

theorem sortedItems_sorted (params : List (String × String)) :
    List.Sorted pairLe (sortedItems params) :=
  List.sorted_insertionSort pairLe params

theorem sortedItems_perm (params : List (String × String)) :
    (sortedItems params).Perm params :=
  List.perm_insertionSort pairLe params

theorem sortedItems_keys_sorted (params : List (String × String)) :
    List.Sorted (fun a b : String × String => listCharLe a.1.data b.1.data = true)
      (sortedItems params) := by
  refine (sortedItems_sorted params).imp ?_
  intro a b hab
  have h := hab
  simp only [pairLe, pairLeb, Bool.or_eq_true, Bool.and_eq_true, beq_iff_eq] at h
  rcases h with h | ⟨h, _⟩
  · exact (listCharLe_iff _ _).mpr (Or.inl h)
  · exact (listCharLe_iff _ _).mpr (Or.inr (by rw [h]))

/-! Soundness of the regex scanners: any returned value has exactly the
shape described by the corresponding regular expression. -/

theorem takeRun_eq_append (p : Char → Bool) (l : List Char) :
    (takeRun p l).1 ++ (takeRun p l).2 = l := by
  induction l with
  | nil => rfl
  | cons c cs ih =>
    by_cases h : p c
    · simp only [takeRun, h, if_true]
      simpa using ih
    · simp [takeRun, h]

theorem takeRun_all (p : Char → Bool) (l : List Char) : ∀ c ∈ (takeRun p l).1, p c := by
  induction l with
  | nil => intro c hc; cases hc
  | cons c cs ih =>
    by_cases h : p c
    · simp only [takeRun, h, if_true]
      intro d hd
      rcases List.mem_cons.mp hd with rfl | hd2
      · exact h
      · exact ih d hd2
    · simp [takeRun, h]

theorem tryItemAt_sound {l ds : List Char} (h : tryItemAt l = some ds) :
    ds ≠ [] ∧ (∀ c ∈ ds, c.isDigit) ∧
      ∃ suf, l = ("/item/").data ++ (ds ++ ((".html").data ++ suf)) := by
  unfold tryItemAt at h
  by_cases hpre : ("/item/").data.isPrefixOf l
  · rw [if_pos hpre] at h
    obtain ⟨t, ht⟩ := List.isPrefixOf_iff_prefix.mp hpre
    subst ht
    have hd6 : ((("/item/").data ++ t).drop 6) = t := List.drop_left' (by decide)
    rw [hd6] at h
    by_cases hc : (!(takeRun Char.isDigit t).1.isEmpty &&
        (".html").data.isPrefixOf (takeRun Char.isDigit t).2)
    · rw [if_pos hc] at h
      have hds : (takeRun Char.isDigit t).1 = ds := Option.some.inj h
      rw [Bool.and_eq_true] at hc
      obtain ⟨hne, hsuf⟩ := hc
      obtain ⟨s, hs⟩ := List.isPrefixOf_iff_prefix.mp hsuf
      refine ⟨?_, ?_, s, ?_⟩
      · rw [← hds]
        simpa using hne
      · intro c hcc
        exact takeRun_all _ t c (by rw [hds]; exact hcc)
      · congr 1
        rw [← hds, hs]
        exact (takeRun_eq_append Char.isDigit t).symm
    · rw [if_neg hc] at h
      cases h
  · rw [if_neg hpre] at h
    cases h

theorem itemScan_sound : ∀ {l ds : List Char}, itemScan l = some ds →
    ds ≠ [] ∧ (∀ c ∈ ds, c.isDigit) ∧
      ∃ pre suf, l = pre ++ (("/item/").data ++ (ds ++ ((".html").data ++ suf))) := by
  intro l
  induction l with
  | nil => intro ds h; cases h
  | cons c cs ih =>
    intro ds h
    unfold itemScan at h
    cases htry : tryItemAt (c :: cs) with
    | some ds2 =>
      rw [htry] at h
      have hds : ds2 = ds := Option.some.inj h
      subst hds
      obtain ⟨h1, h2, s, h3⟩ := tryItemAt_sound htry
      exact ⟨h1, h2, [], s, by simpa using h3⟩
    | none =>
      rw [htry] at h
      obtain ⟨h1, h2, p, s, h3⟩ := ih h
      exact ⟨h1, h2, c :: p, s, by simp [h3]⟩

theorem extract_product_id_sound {url pid : String}
    (h : extract_product_id url = some pid) :
    pid ≠ "" ∧ (∀ c ∈ pid.data, c.isDigit) ∧
      ∃ pre suf : String, url = pre ++ "/item/" ++ pid ++ ".html" ++ suf := by
  unfold extract_product_id at h
  cases hscan : itemScan url.data with
  | none => rw [hscan] at h; cases h
  | some ds =>
    rw [hscan] at h
    have hds : String.mk ds = pid := Option.some.inj h
    obtain ⟨h1, h2, p, s, h3⟩ := itemScan_sound hscan
    refine ⟨?_, ?_, String.mk p, String.mk s, ?_⟩
    · intro hemp
      apply h1
      have := congrArg String.data (hds.trans hemp)
      exact this
    · intro c hc
      apply h2
      have : pid.data = ds := (congrArg String.data hds).symm
      rw [this] at hc
      exact hc
    · apply String.ext
      simp only [String.data_append]
      have : pid.data = ds := (congrArg String.data hds).symm
      rw [this]
      simpa [List.append_assoc] using h3

theorem tryAsinAt_sound {l a : List Char} (h : tryAsinAt l = some a) :
    a.length = 10 ∧ (∀ c ∈ a, isUpperAlnum c) ∧
      ∃ suf, l = a ++ suf ∧
        (suf = [] ∨ (∃ s2, suf = '/' :: s2) ∨ (∃ s2, suf = '?' :: s2)) := by
  simp only [tryAsinAt] at h
  by_cases hc : ((l.take 10).length == 10 && (l.take 10).all isUpperAlnum &&
      ((l.drop 10).isEmpty || (l.drop 10).head? == some '/' || (l.drop 10).head? == some '?'))
  · rw [if_pos hc] at h
    have ha : l.take 10 = a := Option.some.inj h
    rw [Bool.and_eq_true, Bool.and_eq_true] at hc
    obtain ⟨⟨hlen, hall⟩, hbound⟩ := hc
    refine ⟨?_, ?_, l.drop 10, ?_, ?_⟩
    · rw [← ha]
      exact Nat.eq_of_beq_eq_true (by simpa using hlen)
    · intro c hcc
      exact List.all_eq_true.mp hall c (by rw [ha]; exact hcc)
    · rw [← ha]
      exact (List.take_append_drop 10 l).symm
    · rw [Bool.or_eq_true, Bool.or_eq_true] at hbound
      rcases hbound with (hb | hb) | hb
      · exact Or.inl (List.isEmpty_iff.mp hb)
      · refine Or.inr (Or.inl ?_)
        cases hrest : l.drop 10 with
        | nil => rw [hrest] at hb; simp at hb
        | cons x xs =>
          rw [hrest] at hb
          have hx : x = '/' := by simpa using hb
          exact ⟨xs, by rw [hx]⟩
      · refine Or.inr (Or.inr ?_)
        cases hrest : l.drop 10 with
        | nil => rw [hrest] at hb; simp at hb
        | cons x xs =>
          rw [hrest] at hb
          have hx : x = '?' := by simpa using hb
          exact ⟨xs, by rw [hx]⟩
  · rw [if_neg hc] at h
    cases h

theorem asinScan_sound : ∀ {l a : List Char}, asinScan l = some a →
    a.length = 10 ∧ (∀ c ∈ a, isUpperAlnum c) ∧
      ∃ pre suf, l = pre ++ ('/' :: (a ++ suf)) ∧
        (suf = [] ∨ (∃ s2, suf = '/' :: s2) ∨ (∃ s2, suf = '?' :: s2)) := by
  intro l
  induction l with
  | nil => intro a h; cases h
  | cons c cs ih =>
    intro a h
    unfold asinScan at h
    by_cases hc : c == '/'
    · rw [if_pos hc] at h
      cases htry : tryAsinAt cs with
      | some a2 =>
        rw [htry] at h
        have ha : a2 = a := Option.some.inj h
        subst ha
        obtain ⟨h1, h2, s, h3, h4⟩ := tryAsinAt_sound htry
        have hcc : c = '/' := by simpa using hc
        exact ⟨h1, h2, [], s, by rw [hcc, h3]; simp, h4⟩
      | none =>
        rw [htry] at h
        obtain ⟨h1, h2, p, s, h3, h4⟩ := ih h
        exact ⟨h1, h2, c :: p, s, by rw [h3]; simp, h4⟩
    · rw [if_neg hc] at h
      obtain ⟨h1, h2, p, s, h3, h4⟩ := ih h
      exact ⟨h1, h2, c :: p, s, by rw [h3]; simp, h4⟩

theorem extract_asin_sound {url a : String} (h : extract_asin url = some a) :
    a.length = 10 ∧ (∀ c ∈ a.data, isUpperAlnum c) ∧
      ∃ pre suf : String, url = pre ++ "/" ++ a ++ suf ∧
        (suf.data = [] ∨ (∃ s2, suf.data = '/' :: s2) ∨ (∃ s2, suf.data = '?' :: s2)) := by
  unfold extract_asin at h
  cases hscan : asinScan url.data with
  | none => rw [hscan] at h; cases h
  | some ds =>
    rw [hscan] at h
    have hds : String.mk ds = a := Option.some.inj h
    have hdata : a.data = ds := (congrArg String.data hds).symm
    obtain ⟨h1, h2, p, s, h3, h4⟩ := asinScan_sound hscan
    refine ⟨?_, ?_, String.mk p, String.mk s, ?_, ?_⟩
    · rw [← hds]
      exact h1
    · intro c hcc
      exact h2 c (hdata ▸ hcc)
    · apply String.ext
      simp only [String.data_append, hdata]
      rw [h3]
      simp
    · exact h4

/-- Concrete end-to-end check of the signing scheme: the sign string is
"S/p/a1b2S" and the digest matches the reference MD5 value. -/
theorem signature_concrete_value :
    _generate_signature "S" "/p/" [("b", "2"), ("a", "1")] =
      "38a74399bf54d4abd3b12a1db9906f7d" := by
  decide

/-- C1: for every secret, api_path and parameter mapping,
`AliexpressAPIHandler._generate_signature` returns the MD5 digest, rendered
as a fixed-length (32-character) hexadecimal string, of
secret ++ api_path ++ (key immediately followed by value for each parameter,
in lexicographic order of key, no separators) ++ secret; and the result is
deterministic: identical inputs always yield the same signature. -/
theorem C1_generate_signature_spec (secret api_path : String)
    (params : List (String × String)) :
    _generate_signature secret api_path params =
      md5HexOfString (secret ++ api_path ++
        String.join ((sortedItems params).map fun kv => kv.1 ++ kv.2) ++ secret)
    ∧ List.Sorted (fun a b : String × String => listCharLe a.1.data b.1.data = true)
        (sortedItems params)
    ∧ (sortedItems params).Perm params
    ∧ (_generate_signature secret api_path params).length = 32
    ∧ (∀ c ∈ (_generate_signature secret api_path params).data, c ∈ hexAlphabet)
    ∧ (∀ secret2 api_path2 params2, secret2 = secret → api_path2 = api_path →
        params2 = params →
        _generate_signature secret2 api_path2 params2 =
          _generate_signature secret api_path params) := by
  refine ⟨rfl, sortedItems_keys_sorted params, sortedItems_perm params, ?_, ?_, ?_⟩
  · exact md5HexOfString_length _
  · intro c hc
    exact md5HexOfString_hex _ c hc
  · intro s2 a2 p2 h1 h2 h3
    rw [h1, h2, h3]

/-- Witness for C1 at a concrete input. -/
theorem C1_generate_signature_spec_witness :
    (_generate_signature "S" "/p/" [("b", "2"), ("a", "1")]).length = 32
    ∧ '3' ∈ hexAlphabet
    ∧ _generate_signature "S" "/p/" [("b", "2"), ("a", "1")] =
        _generate_signature "S" "/p/" [("b", "2"), ("a", "1")] := by
  refine ⟨(C1_generate_signature_spec "S" "/p/" [("b", "2"), ("a", "1")]).2.2.2.1, ?_, ?_⟩
  · exact (C1_generate_signature_spec "S" "/p/" [("b", "2"), ("a", "1")]).2.2.2.2.1 '3'
      (by rw [signature_concrete_value]; decide)
  · exact (C1_generate_signature_spec "S" "/p/" [("b", "2"), ("a", "1")]).2.2.2.2.2
      _ _ _ rfl rfl rfl

/-- C5: `AmazonAPIHandler.extract_asin` returns exactly a 10-character
uppercase-alphanumeric segment preceded by a slash and bounded on the right
by a slash, a question mark or end of string; the spec example yields
B08N5WRWNW, while 9- and 11-character candidates yield no ASIN. -/
theorem C5_extract_asin_spec :
    extract_asin "https://www.amazon.com/dp/B08N5WRWNW/ref=x" = some "B08N5WRWNW"
    ∧ extract_asin "https://www.amazon.com/dp/B08N5WRWN/ref=x" = none
    ∧ extract_asin "https://www.amazon.com/dp/B08N5WRWNWX/ref=x" = none
    ∧ (∀ url a, extract_asin url = some a →
        a.length = 10 ∧ (∀ c ∈ a.data, isUpperAlnum c) ∧
          ∃ pre suf : String, url = pre ++ "/" ++ a ++ suf ∧
            (suf.data = [] ∨ (∃ s2, suf.data = '/' :: s2) ∨ (∃ s2, suf.data = '?' :: s2))) := by
  refine ⟨by decide, by decide, by decide, ?_⟩
  intro url a h
  exact extract_asin_sound h

/-- Witness for C5 at the spec's example URL. -/
theorem C5_extract_asin_spec_witness :
    ("B08N5WRWNW" : String).length = 10
    ∧ (∀ c ∈ ("B08N5WRWNW" : String).data, isUpperAlnum c)
    ∧ ∃ pre suf : String,
        "https://www.amazon.com/dp/B08N5WRWNW/ref=x" = pre ++ "/" ++ "B08N5WRWNW" ++ suf ∧
        (suf.data = [] ∨ (∃ s2, suf.data = '/' :: s2) ∨ (∃ s2, suf.data = '?' :: s2)) :=
  C5_extract_asin_spec.2.2.2 "https://www.amazon.com/dp/B08N5WRWNW/ref=x" "B08N5WRWNW"
    (by decide)

/-- C6: `AliexpressAPIHandler.extract_product_id` returns the digits of a
path segment of the form /item/(digits).html, is absent for a URL without
that shape (even when `can_handle` is true by domain match), and whenever
no product id is extracted `get_product_info` returns absent. -/
theorem C6_extract_product_id_spec :
    extract_product_id "https://www.aliexpress.com/item/1005006123456.html" = some "1005006123456"
    ∧ extract_product_id "https://www.aliexpress.com/store/12345" = none
    ∧ ali_can_handle "https://www.aliexpress.com/store/12345" = true
    ∧ (∀ url pid, extract_product_id url = some pid →
        pid ≠ "" ∧ (∀ c ∈ pid.data, c.isDigit) ∧
          ∃ pre suf : String, url = pre ++ "/item/" ++ pid ++ ".html" ++ suf)
    ∧ (∀ cfg now http url, extract_product_id url = none →
        ali_get_product_info cfg now http url = none) := by
  refine ⟨by decide, by decide, by decide, ?_, ?_⟩
  · intro url pid h
    exact extract_product_id_sound h
  · intro cfg now http url h
    unfold ali_get_product_info
    rw [h]

/-- Witness for C6 at concrete inputs. -/
theorem C6_extract_product_id_spec_witness :
    (("1005006123456" : String) ≠ ""
      ∧ (∀ c ∈ ("1005006123456" : String).data, c.isDigit)
      ∧ ∃ pre suf : String,
          "https://www.aliexpress.com/item/1005006123456.html" =
            pre ++ "/item/" ++ "1005006123456" ++ ".html" ++ suf)
    ∧ ali_get_product_info ⟨"AK", "SECRET", "AFF"⟩ 0 (fun _ => none)
        "https://www.aliexpress.com/store/12345" = none := by
  constructor
  · exact C6_extract_product_id_spec.2.2.2.1
      "https://www.aliexpress.com/item/1005006123456.html" "1005006123456" (by decide)
  · exact C6_extract_product_id_spec.2.2.2.2 ⟨"AK", "SECRET", "AFF"⟩ 0 (fun _ => none)
      "https://www.aliexpress.com/store/12345" (by decide)

/-- C7: for every URL with an extractable ASIN,
`AmazonAPIHandler.create_affiliate_link` returns exactly
https://www.amazon.(country)/dp/(ASIN)?tag=(tag), and the result depends
only on the extracted ASIN, discarding all original query parameters. -/
theorem C7_amazon_affiliate_link_spec :
    (∀ cfg url asin, extract_asin url = some asin →
      amazon_create_affiliate_link cfg url =
        "https://www.amazon." ++ cfg.amazon_country ++ "/dp/" ++ asin ++
          "?tag=" ++ cfg.amazon_affiliate_tag)
    ∧ (∀ cfg url1 url2 asin, extract_asin url1 = some asin → extract_asin url2 = some asin →
        amazon_create_affiliate_link cfg url1 = amazon_create_affiliate_link cfg url2) := by
  constructor
  · intro cfg url asin h
    unfold amazon_create_affiliate_link
    rw [h]
  · intro cfg url1 url2 asin h1 h2
    unfold amazon_create_affiliate_link
    rw [h1, h2]

/-- Witness for C7: original query parameters are discarded. -/
theorem C7_amazon_affiliate_link_spec_witness :
    amazon_create_affiliate_link ⟨"es", "TAG"⟩ "https://www.amazon.es/dp/B000123ABC?x=1&y=2" =
      "https://www.amazon." ++ "es" ++ "/dp/" ++ "B000123ABC" ++ "?tag=" ++ "TAG" :=
  C7_amazon_affiliate_link_spec.1 ⟨"es", "TAG"⟩
    "https://www.amazon.es/dp/B000123ABC?x=1&y=2" "B000123ABC" (by decide)

/-- C9: `shorten_url` never raises; a network error or a non-200 status
returns the input link verbatim, and a 200 response returns its body. -/
theorem C9_shorten_url_spec :
    (∀ url : String, shorten_url none url = url)
    ∧ (∀ url body : String, ∀ status : Nat, status ≠ 200 →
        shorten_url (some (status, body)) url = url)
    ∧ (∀ url body : String, shorten_url (some (200, body)) url = body) := by
  refine ⟨fun url => rfl, ?_, fun url body => rfl⟩
  intro url body status h
  unfold shorten_url
  simp [h]

/-- Witness for C9 at a non-200 status. -/
theorem C9_shorten_url_spec_witness :
    shorten_url (some (503, "short")) "https://a/b?aff_id=AFF" = "https://a/b?aff_id=AFF" :=
  C9_shorten_url_spec.2.1 "https://a/b?aff_id=AFF" "short" 503 (by decide)

/-! Dispatcher lemmas. -/

theorem processUrl_no_match {shorten : String → Option (Nat × String)}
    {handlers : List Handler} {url : String}
    (h : ∀ hd ∈ handlers, hd.can_handle url = false) :
    processUrl shorten handlers url = [] := by
  induction handlers with
  | nil => rfl
  | cons hd tl ih =>
    have hf : hd.can_handle url = false := h hd (by simp)
    simp only [processUrl, hf]
    simp only [Bool.false_eq_true, if_false]
    exact ih fun x hx => h x (List.mem_cons_of_mem hd hx)

theorem flatMap_eq_nil_of_all {α β : Type} {f : α → List β} :
    ∀ {l : List α}, (∀ a ∈ l, f a = []) → l.flatMap f = [] := by
  intro l
  induction l with
  | nil => intro _; rfl
  | cons a t ih =>
    intro h
    simp only [List.flatMap_cons, h a (by simp), List.nil_append]
    exact ih fun x hx => h x (by simp [hx])

/-- C2 counterexample: a message whose only URL is matched by no registered
handler produces no reply at all, not an echo of the raw URL. -/
theorem C2_counterexample :
    findUrls "see https://example.com/thing" = ["https://example.com/thing"]
    ∧ ali_can_handle "https://example.com/thing" = false
    ∧ amazon_can_handle "https://example.com/thing" = false
    ∧ process_link_handlers (fun _ => none)
        (registeredHandlers ⟨"AK", "SECRET", "AFF"⟩ ⟨"es", "TAG"⟩ 0 (fun _ => none)
          (fun _ => none))
        (some "see https://example.com/thing") = []
    ∧ ([] : List Reply) ≠ [Reply.text "https://example.com/thing"] := by
  refine ⟨by decide, by decide, by decide, by decide, by decide⟩

/-- C2 amended: a URL matched by no registered handler yields no reply at
all (silent skip); a URL whose matched handler returns no product is
echoed back as a text reply of the unchanged URL behind a link-emoji
prefix. -/
theorem C2_amended_dispatcher_fallback :
    (∀ handlers shorten text,
      (∀ url ∈ findUrls text, ∀ hd ∈ handlers, Handler.can_handle hd url = false) →
      process_link_handlers shorten handlers (some text) = [])
    ∧ (∀ shorten hd tl url, Handler.can_handle hd url = true →
        Handler.get_product_info hd url = none →
        (processUrl shorten (hd :: tl) url).head? = some (Reply.text ("🔗 " ++ url))) := by
  constructor
  · intro handlers shorten text hnone
    unfold process_link_handlers
    apply flatMap_eq_nil_of_all
    intro url hurl
    exact processUrl_no_match fun hd hmem => hnone url hurl hd hmem
  · intro shorten hd tl url hcan hprod
    simp only [processUrl, hcan, if_true, hprod]
    rfl

/-- Witness for the amended C2 at concrete inputs. -/
theorem C2_amended_dispatcher_fallback_witness :
    process_link_handlers (fun _ => none)
      (registeredHandlers ⟨"AK", "SECRET", "AFF"⟩ ⟨"es", "TAG"⟩ 0 (fun _ => none)
        (fun _ => none))
      (some "see https://example.com/thing") = []
    ∧ (processUrl (fun _ => none)
        (registeredHandlers ⟨"AK", "SECRET", "AFF"⟩ ⟨"es", "TAG"⟩ 0 (fun _ => none)
          (fun _ => none))
        "https://www.aliexpress.com/amazon.deal").head? =
      some (Reply.text ("🔗 " ++ "https://www.aliexpress.com/amazon.deal")) := by
  constructor
  · exact C2_amended_dispatcher_fallback.1 _ (fun _ => none) "see https://example.com/thing"
      (by decide)
  · exact C2_amended_dispatcher_fallback.2 (fun _ => none) _ _
      "https://www.aliexpress.com/amazon.deal" (by decide) (by decide)

/-- C3 counterexample: a URL matched by the AliExpress handler (which finds
no product) is then also tried by the Amazon handler, producing a second
echo reply, so processing does not stop after the first raw-URL emission. -/
theorem C3_counterexample :
    ali_can_handle "https://www.aliexpress.com/amazon.deal" = true
    ∧ ali_get_product_info ⟨"AK", "SECRET", "AFF"⟩ 0 (fun _ => none)
        "https://www.aliexpress.com/amazon.deal" = none
    ∧ amazon_can_handle "https://www.aliexpress.com/amazon.deal" = true
    ∧ processUrl (fun _ => none)
        (registeredHandlers ⟨"AK", "SECRET", "AFF"⟩ ⟨"es", "TAG"⟩ 0 (fun _ => none)
          (fun _ => none))
        "https://www.aliexpress.com/amazon.deal" =
      [Reply.text ("🔗 " ++ "https://www.aliexpress.com/amazon.deal"),
       Reply.text ("🔗 " ++ "https://www.aliexpress.com/amazon.deal")]
    ∧ [Reply.text ("🔗 " ++ "https://www.aliexpress.com/amazon.deal"),
       Reply.text ("🔗 " ++ "https://www.aliexpress.com/amazon.deal")] ≠
      [Reply.text ("🔗 " ++ "https://www.aliexpress.com/amazon.deal")] := by
  refine ⟨by decide, by decide, by decide, by decide, by decide⟩

/-- C3 amended: the handler loop stops (breaks) only when a handler
returns a product; when the matched handler returns no product, the raw
URL is echoed and iteration continues with the remaining handlers, so a
later matching handler is still tried. -/
theorem C3_amended_first_match_commitment :
    (∀ shorten hd tl url product, Handler.can_handle hd url = true →
      Handler.get_product_info hd url = some product →
      processUrl shorten (hd :: tl) url = [productReply shorten hd product url])
    ∧ (∀ shorten hd tl url, Handler.can_handle hd url = true →
        Handler.get_product_info hd url = none →
        processUrl shorten (hd :: tl) url =
          Reply.text ("🔗 " ++ url) :: processUrl shorten tl url)
    ∧ (∀ shorten hd tl url, Handler.can_handle hd url = false →
        processUrl shorten (hd :: tl) url = processUrl shorten tl url) := by
  refine ⟨?_, ?_, ?_⟩
  · intro shorten hd tl url product hcan hprod
    simp only [processUrl, hcan, if_true, hprod]
  · intro shorten hd tl url hcan hprod
    simp only [processUrl, hcan, if_true, hprod]
  · intro shorten hd tl url hcan
    simp only [processUrl, hcan, Bool.false_eq_true, if_false]

/-- Witness for the amended C3 at a concrete URL matched by both handlers. -/
theorem C3_amended_first_match_commitment_witness :
    processUrl (fun _ => none)
      (registeredHandlers ⟨"AK", "SECRET", "AFF"⟩ ⟨"es", "TAG"⟩ 0 (fun _ => none)
        (fun _ => none))
      "https://www.aliexpress.com/amazon.deal" =
      Reply.text ("🔗 " ++ "https://www.aliexpress.com/amazon.deal") ::
        processUrl (fun _ => none)
          [{ can_handle := amazon_can_handle
             get_product_info := amazon_get_product_info (fun _ => none)
             create_affiliate_link := amazon_create_affiliate_link ⟨"es", "TAG"⟩ }]
          "https://www.aliexpress.com/amazon.deal" :=
  C3_amended_first_match_commitment.2.1 (fun _ => none) _ _
    "https://www.aliexpress.com/amazon.deal" (by decide) (by decide)

/-- C4 counterexample: `AliexpressAPIHandler.create_affiliate_link` appends
the aff_id query parameter even when no product id can be extracted, so it
does not return the original URL unchanged. -/
theorem C4_counterexample :
    extract_product_id "https://es.aliexpress.com/promo" = none
    ∧ ali_create_affiliate_link ⟨"AK", "SECRET", "AFF"⟩ "https://es.aliexpress.com/promo" =
        "https://es.aliexpress.com/promo?aff_id=AFF"
    ∧ ali_create_affiliate_link ⟨"AK", "SECRET", "AFF"⟩ "https://es.aliexpress.com/promo" ≠
        "https://es.aliexpress.com/promo" := by
  refine ⟨by decide, by decide, by decide⟩

/-- C4 amended: only the Amazon handler returns the original URL unchanged
when its identifier cannot be extracted; the AliExpress handler appends
`?aff_id=(id)` unconditionally. -/
theorem C4_amended_affiliate_link_fallback :
    (∀ cfg url, extract_asin url = none → amazon_create_affiliate_link cfg url = url)
    ∧ (∀ cfg url, ali_create_affiliate_link cfg url =
        url ++ "?aff_id=" ++ cfg.aliexpress_aff_id) := by
  constructor
  · intro cfg url h
    unfold amazon_create_affiliate_link
    rw [h]
  · intro cfg url
    rfl

/-- Witness for the amended C4 at a concrete Amazon URL with no ASIN. -/
theorem C4_amended_affiliate_link_fallback_witness :
    amazon_create_affiliate_link ⟨"es", "TAG"⟩ "https://www.amazon.es/gp/help" =
      "https://www.amazon.es/gp/help" :=
  C4_amended_affiliate_link_fallback.1 ⟨"es", "TAG"⟩ "https://www.amazon.es/gp/help" (by decide)

/-- C8 counterexample: Python's `username and username in excluded_users`
guard makes an empty-string username never trigger exclusion, even when
the empty string is a member of the configured exclusion set, refuting the
claimed iff. -/
theorem C8_counterexample :
    is_user_excluded ⟨[], [""]⟩ ⟨7, some ""⟩ = false
    ∧ "" ∈ (ExcludedUsers.mk [] [""]).names
    ∧ ¬(is_user_excluded ⟨[], [""]⟩ ⟨7, some ""⟩ = true ↔
        ((7 : Int) ∈ ([] : List Int) ∨
          ∃ s, (some "" : Option String) = some s ∧ s ∈ ([""] : List String))) := by
  refine ⟨by decide, by decide, ?_⟩
  intro hiff
  have h2 : is_user_excluded ⟨[], [""]⟩ ⟨7, some ""⟩ = true :=
    hiff.mpr (Or.inr ⟨"", rfl, by decide⟩)
  exact absurd h2 (by decide)

/-- C8 amended: the exclusion predicate is true iff the numeric id is in
the configured set, or the username is present, non-empty and in the set;
and an excluded sender produces no reply at all. -/
theorem C8_amended_exclusion_spec :
    (∀ excluded user, is_user_excluded excluded user = true ↔
      (user.id ∈ excluded.ids ∨
        ∃ s, user.username = some s ∧ s ≠ "" ∧ s ∈ excluded.names))
    ∧ (∀ excluded shorten handlers (update : TgUpdate) user,
        update.effective_user = some user → is_user_excluded excluded user = true →
        modify_link excluded shorten handlers update = []) := by
  constructor
  · intro excluded user
    cases hu : user.username with
    | none => simp [is_user_excluded, hu, List.contains]
    | some s =>
      by_cases hs : s = ""
      · subst hs
        simp [is_user_excluded, hu, List.contains]
      · simp [is_user_excluded, hu, hs, List.contains]
  · intro excluded shorten handlers update user hu hex
    unfold modify_link
    cases hm : update.message with
    | none => rfl
    | some text =>
      by_cases ht : text == ""
      · simp [ht]
      · simp [ht, hu, hex]

/-- Witness for the amended C8: an excluded sender with a recognizable
vendor URL in the message gets no reply. -/
theorem C8_amended_exclusion_spec_witness :
    modify_link ⟨[7], []⟩ (fun _ => none)
      (registeredHandlers ⟨"AK", "SECRET", "AFF"⟩ ⟨"es", "TAG"⟩ 0 (fun _ => none)
        (fun _ => none))
      ⟨some "check https://www.amazon.es/dp/B000123ABC", some ⟨7, some "bob"⟩⟩ = [] :=
  C8_amended_exclusion_spec.2 ⟨[7], []⟩ (fun _ => none) _ _ ⟨7, some "bob"⟩ rfl (by decide)

theorem pyOr_ne_empty (x : Option String) {d : String} (hd : d ≠ "") : pyOr x d ≠ "" := by
  cases x with
  | none => exact hd
  | some s =>
    by_cases hs : s == ""
    · simp [pyOr, hs]
      exact hd
    · simp [pyOr, hs]
      simpa using hs

/-- C10 counterexample: an Amazon item whose first feature bullet is the
empty string yields a found product whose description field is empty, so
the composer's description line is not rendered and no placeholder is
substituted. -/
theorem C10_counterexample :
    amazon_get_product_info
      (fun asin => if asin = "B000123ABC" then
        some { title_display_value := "Widget"
               primary_large_url := "https://img/x.jpg"
               listings := [{ price_display_amount := "$9.99", price_savings_basis := none }]
               features := some [""] }
        else none)
      "https://www.amazon.es/dp/B000123ABC" =
      some { title := some "Widget", image_url := some "https://img/x.jpg",
             price := some "$9.99", old_price := none, description := "" }
    ∧ ({ title := some "Widget", image_url := some "https://img/x.jpg",
         price := some "$9.99", old_price := none, description := "" } : ProductInfo).description
        = "" := by
  refine ⟨by decide, rfl⟩

/-- C10 amended: every found product carries a description string; for
AliExpress it is always non-empty (placeholder on a falsy vendor field);
for Amazon it is the placeholder when the response has no features, and
otherwise the first feature bullet verbatim, which may be empty. -/
theorem C10_amended_description_invariant :
    (∀ cfg now http url p, ali_get_product_info cfg now http url = some p →
      p.description ≠ "")
    ∧ (∀ fetch url p, amazon_get_product_info fetch url = some p →
        p.description = "Producto de Amazon" ∨
          ∃ asin item ds, extract_asin url = some asin ∧ fetch asin = some item ∧
            item.features = some ds ∧ ds.head? = some p.description) := by
  constructor
  · intro cfg now http url p h
    unfold ali_get_product_info at h
    cases hpid : extract_product_id url with
    | none => simp only [hpid] at h; cases h
    | some pid =>
      simp only [hpid] at h
      cases hhttp : http (aliSignedParams cfg now pid) with
      | none => simp only [hhttp] at h; cases h
      | some result =>
        simp only [hhttp] at h
        have hp := Option.some.inj h
        rw [← hp]
        exact pyOr_ne_empty result.productDescription (by decide)
  · intro fetch url p h
    unfold amazon_get_product_info at h
    cases hasin : extract_asin url with
    | none => simp only [hasin] at h; cases h
    | some asin =>
      simp only [hasin] at h
      cases hfetch : fetch asin with
      | none => simp only [hfetch] at h; cases h
      | some item =>
        simp only [hfetch] at h
        cases hlist : item.listings with
        | nil => simp only [hlist] at h; cases h
        | cons listing rest =>
          simp only [hlist] at h
          cases hfeat : item.features with
          | none =>
            simp only [hfeat] at h
            have hp := Option.some.inj h
            exact Or.inl (by rw [← hp])
          | some ds =>
            simp only [hfeat] at h
            cases ds with
            | nil => cases h
            | cons d drest =>
              have hp := Option.some.inj h
              exact Or.inr ⟨asin, item, d :: drest, rfl, hfetch, hfeat, by rw [← hp]; rfl⟩

/-- Witness for the amended C10 at concrete vendor responses. -/
theorem C10_amended_description_invariant_witness :
    ({ title := some "T", image_url := none, price := some "1", old_price := none,
       description := "Producto en AliExpress" } : ProductInfo).description ≠ ""
    ∧ (({ title := some "Widget", image_url := some "https://img/x.jpg",
          price := some "$9.99", old_price := none,
          description := "Producto de Amazon" } : ProductInfo).description =
            "Producto de Amazon" ∨
        ∃ asin item ds,
          extract_asin "https://www.amazon.es/dp/B000123ABC" = some asin ∧
          (fun a => if a = "B000123ABC" then
            some ({ title_display_value := "Widget"
                    primary_large_url := "https://img/x.jpg"
                    listings := [{ price_display_amount := "$9.99",
                                   price_savings_basis := none }]
                    features := none } : AmazonItem)
            else none) asin = some item ∧
          item.features = some ds ∧
          ds.head? = some ("Producto de Amazon")) := by
  constructor
  · exact C10_amended_description_invariant.1 ⟨"AK", "SECRET", "AFF"⟩ 0
      (fun _ => some ⟨some "T", none, some "1", none, none⟩)
      "https://www.aliexpress.com/item/123.html" _ (by decide)
  · exact C10_amended_description_invariant.2
      (fun a => if a = "B000123ABC" then
        some { title_display_value := "Widget"
               primary_large_url := "https://img/x.jpg"
               listings := [{ price_display_amount := "$9.99", price_savings_basis := none }]
               features := none }
        else none)
      "https://www.amazon.es/dp/B000123ABC" _ (by decide)

end Botaffiumeiro
